import Mathlib

/-!
Verification of the camera-assessment core: a shallow embedding over ℝ of
the pinhole ground projection, the damped-Newton tilt solver, the adaptive
maximum-distance search and the analysis orchestrator, together with
theorems settling the specification claims.

The embedding follows `src/core/projection.ts`, `src/core/optimization.ts`,
`src/analyze-camera-view.ts`, `src/types/zoom.ts` and `src/utils/constants.ts`
of the camera-assessment repository.  JavaScript numbers are modelled as real
numbers; a thrown-and-caught "Point behind the camera" error is modelled by
`Option`; the two validation errors that cross the public boundary are
modelled by `Except`.
-/

namespace CameraAssessment

/-! ## Constants (src/utils/constants.ts) -/

/-- Default camera height in meters. -/
def CAMERA_HEIGHT : ℝ := 20

/-- Horizontal sensor resolution in pixels. -/
def SENSOR_RES_X : ℝ := 2560

/-- Vertical sensor resolution in pixels. -/
def SENSOR_RES_Y : ℝ := 1440

/-- Spacing between consecutive ground markings, in meters. -/
def LINE_SPACING : ℝ := 2

/-- Focal length at zoom level 1, in mm. -/
def F_MIN : ℝ := 4.8

/-- Maximum focal length, in mm. -/
def F_MAX : ℝ := 120

/-- Vertical field of view at minimum focal length, in degrees. -/
def FOV_VERTICAL : ℝ := 33

/-- Degrees to radians (src/utils/math-helpers.ts). -/
noncomputable def degToRad (degrees : ℝ) : ℝ := degrees * Real.pi / 180

/-- Physical sensor height in mm, derived from the reference vertical field
of view at the base focal length:
`2 * F_MIN * Math.tan(((FOV_VERTICAL / 2) * Math.PI) / 180)`. -/
noncomputable def SENSOR_HEIGHT : ℝ := 2 * F_MIN * Real.tan (degToRad (FOV_VERTICAL / 2))

/-- Convergence tolerance of the bisection, in meters. -/
def DISTANCE_TOLERANCE : ℝ := 0.001

/-! ## Data model -/

/-- Inputs of a single projection (src/types/camera-types.ts). -/
structure ProjectionParams where
  focalLength : ℝ
  tiltAngle : ℝ
  cameraHeight : ℝ

/-- A pixel coordinate (src/types/camera-types.ts). -/
structure Point2D where
  x : ℝ
  y : ℝ

/-- Canonical-radians angle value object (src/types/angle.ts). -/
structure Angle where
  radians : ℝ

/-! ## Ground projection (src/core/projection.ts) -/

/-- Camera-frame Y coordinate after the pitch-down rotation:
`yCam = -cameraHeight * cos(tiltAngle) - distance * sin(tiltAngle)`. -/
noncomputable def yCamOf (distance : ℝ) (p : ProjectionParams) : ℝ :=
  -p.cameraHeight * Real.cos p.tiltAngle - distance * Real.sin p.tiltAngle

/-- Camera-frame depth after the pitch-down rotation:
`zCam = -cameraHeight * sin(tiltAngle) + distance * cos(tiltAngle)`. -/
noncomputable def zCamOf (distance : ℝ) (p : ProjectionParams) : ℝ :=
  -p.cameraHeight * Real.sin p.tiltAngle + distance * Real.cos p.tiltAngle

/-- The pixel row produced by `projectGroundPoint` when the point is in
front of the lens, exactly as computed by the source:
`yImage = focalLength * (yCam / zCam)`, `normalizedY = -yImage / (SENSOR_HEIGHT / 2)`,
`yPixel = (0.5 + normalizedY / 2) * SENSOR_RES_Y`. -/
noncomputable def yRowOf (distance : ℝ) (p : ProjectionParams) : ℝ :=
  (0.5 + -(p.focalLength * (yCamOf distance p / zCamOf distance p)) / (SENSOR_HEIGHT / 2) / 2) *
    SENSOR_RES_Y

/-- `projectGroundPoint` (src/core/projection.ts).  The source throws
`Point behind the camera` when `zCam <= 0`; the throw is modelled by `none`. -/
noncomputable def projectGroundPoint (distance : ℝ) (p : ProjectionParams) : Option Point2D :=
  if zCamOf distance p ≤ 0 then none
  else some ⟨SENSOR_RES_X / 2, yRowOf distance p⟩

/-- `computePixelGap` (src/core/projection.ts): absolute pixel-row distance
between two markings; propagates a projection failure. -/
noncomputable def computePixelGap (lineDistance prevLineDistance : ℝ) (p : ProjectionParams) :
    Option ℝ :=
  match projectGroundPoint lineDistance p, projectGroundPoint prevLineDistance p with
  | some c, some q => some |c.y - q.y|
  | _, _ => none

/-! ## Tilt solver (src/core/optimization.ts, findOptimalTilt) -/

/-- Target pixel row for the solver: 90% down the sensor. -/
def targetPixel : ℝ := SENSOR_RES_Y * 0.9

/-- Upper clamp of the tilt: almost straight down (~89 degrees). -/
noncomputable def maxTilt : ℝ := Real.pi / 2 - 0.01

/-- Lower clamp of the tilt: slightly above horizontal. -/
def minTilt : ℝ := 0.01

/-- `tilt = Math.max(minTilt, Math.min(maxTilt, tilt))`. -/
noncomputable def clampTilt (t : ℝ) : ℝ := max minTilt (min maxTilt t)

/-- The damped Newton refinement loop of `findOptimalTilt`, with the
remaining iteration budget as fuel.  Each iteration clamps the tilt,
projects the target (a failure breaks out returning the clamped tilt),
stops if the pixel error is below one pixel, estimates the derivative by a
finite difference with perturbation `0.0001` (a failure of the perturbed
projection also breaks out), and applies the damped update
`tilt - (error / derivative) * 0.5` only when `|derivative| > 1e-6`. -/
noncomputable def newtonIter (targetDistance focalLength cameraHeight : ℝ) :
    Nat → ℝ → ℝ
  | 0, tilt => tilt
  | n + 1, tilt =>
    let t := clampTilt tilt
    match projectGroundPoint targetDistance ⟨focalLength, t, cameraHeight⟩ with
    | none => t
    | some proj =>
      if |proj.y - targetPixel| < 1 then t
      else
        match projectGroundPoint targetDistance
            ⟨focalLength, min maxTilt (t + 0.0001), cameraHeight⟩ with
        | none => t
        | some projDelta =>
          if 0.000001 < |(projDelta.y - proj.y) / 0.0001| then
            newtonIter targetDistance focalLength cameraHeight n
              (clampTilt (t - (proj.y - targetPixel) / ((projDelta.y - proj.y) / 0.0001) * 0.5))
          else
            newtonIter targetDistance focalLength cameraHeight n t

/-- `findOptimalTilt` (src/core/optimization.ts): initial guess
`atan(cameraHeight / targetDistance)`, then at most 20 damped Newton
iterations. -/
noncomputable def findOptimalTilt (targetDistance focalLength cameraHeight : ℝ) : ℝ :=
  newtonIter targetDistance focalLength cameraHeight 20
    (Real.arctan (cameraHeight / targetDistance))

/-! ## Distance search (src/core/optimization.ts, findMaximumDistance) -/

/-- `Math.floor(x / LINE_SPACING) * LINE_SPACING`: round a distance down to
the nearest multiple of the marker gap. -/
noncomputable def floorToLine (x : ℝ) : ℝ := ⌊x / LINE_SPACING⌋ * LINE_SPACING

/-- The feasibility probe of the distance search: solve the tilt for
`distance`, then measure the pixel gap between the marking at `distance`
and its predecessor at `distance - LINE_SPACING`.  `none` models a caught
`Point behind the camera` failure inside the probe. -/
noncomputable def feasibleGap (focalLength cameraHeight distance : ℝ) : Option ℝ :=
  computePixelGap distance (distance - LINE_SPACING)
    ⟨focalLength, findOptimalTilt distance focalLength cameraHeight, cameraHeight⟩

/-- Exponential bound expansion: starting from `(left, right)`, keep
doubling `right` while the probe at `floorToLine right` is feasible.  The
fuel is the remaining iteration budget (`maxIterations - iterations` in the
source, initially 50).  The loop exits silently — with the current bounds —
on fuel exhaustion, on a non-positive test distance, on a probe failure, or
on an infeasible probe. -/
noncomputable def expandLoop (focalLength minPixelGap cameraHeight : ℝ) :
    Nat → ℝ × ℝ → ℝ × ℝ
  | 0, s => s
  | n + 1, (left, right) =>
    let testDistance := floorToLine right
    if testDistance ≤ 0 then (left, right)
    else
      match feasibleGap focalLength cameraHeight testDistance with
      | none => (left, right)
      | some gap =>
        if minPixelGap ≤ gap then
          expandLoop focalLength minPixelGap cameraHeight n (right, 2 * right)
        else (left, right)

/-- Bisection between the last feasible and first infeasible bound, run
until `right - left ≤ DISTANCE_TOLERANCE`.  A probe failure is treated as
infeasible (`right := mid`); a non-positive probe distance moves `left` up.
The source's `while` loop always terminates because the width halves
exactly each iteration; the fuel below is chosen large enough that the
width test, never the fuel, ends the loop for every reachable state. -/
noncomputable def bisectLoop (focalLength minPixelGap cameraHeight : ℝ) :
    Nat → ℝ × ℝ → ℝ × ℝ
  | 0, s => s
  | n + 1, (left, right) =>
    if right - left ≤ DISTANCE_TOLERANCE then (left, right)
    else
      let mid := (left + right) / 2
      let distance := floorToLine mid
      if distance ≤ 0 then bisectLoop focalLength minPixelGap cameraHeight n (mid, right)
      else
        match feasibleGap focalLength cameraHeight distance with
        | none => bisectLoop focalLength minPixelGap cameraHeight n (left, mid)
        | some gap =>
          if minPixelGap ≤ gap then
            bisectLoop focalLength minPixelGap cameraHeight n (mid, right)
          else bisectLoop focalLength minPixelGap cameraHeight n (left, mid)

/-- Fuel for the bisection loop; the expansion bounds the width by
`1000 * 2 ^ 50`, which 200 halvings reduce far below `DISTANCE_TOLERANCE`. -/
def bisectFuel : Nat := 200

/-- The final `(left, right)` bounds of the search: exponential expansion
from `(0, 1000)` with at most 50 doublings, then bisection. -/
noncomputable def searchBounds (focalLength minPixelGap cameraHeight : ℝ) : ℝ × ℝ :=
  bisectLoop focalLength minPixelGap cameraHeight bisectFuel
    (expandLoop focalLength minPixelGap cameraHeight 50 (0, 1000))

/-- `findMaximumDistance` (src/core/optimization.ts): the floor of the
final feasible bound to a multiple of the marker gap. -/
noncomputable def findMaximumDistance (focalLength minPixelGap cameraHeight : ℝ) : ℝ :=
  floorToLine (searchBounds focalLength minPixelGap cameraHeight).1

/-- Result record of `findMaximumDistanceWithDetails`. -/
structure MaximumDistanceResult where
  distance : ℝ
  optimalAngle : Angle
  lineCount : ℝ

/-- `findMaximumDistanceWithDetails` (src/core/optimization.ts): the same
search, plus the tilt re-solved at the final distance and the line count
`distance / LINE_SPACING`; a zero final distance yields a zero record. -/
noncomputable def findMaximumDistanceWithDetails (focalLength minPixelGap cameraHeight : ℝ) :
    MaximumDistanceResult :=
  let finalDistance := findMaximumDistance focalLength minPixelGap cameraHeight
  if finalDistance = 0 then ⟨0, ⟨0⟩, 0⟩
  else
    ⟨finalDistance, ⟨findOptimalTilt finalDistance focalLength cameraHeight⟩,
      finalDistance / LINE_SPACING⟩

/-! ## Orchestrator (src/types/zoom.ts and src/analyze-camera-view.ts) -/

/-- The two error kinds that cross the core's public boundary:
`InvalidZoomLevelError` (thrown by the `Zoom` constructor) and
`ImpossibleConstraintError` (thrown by `analyzeCameraView`). -/
inductive AnalysisError where
  | invalidZoomLevel
  | impossibleConstraint
deriving DecidableEq

/-- Result record of `analyzeCameraView` (src/types/assessment.ts). -/
structure CameraViewAnalysis where
  distanceInMeters : ℝ
  tiltAngle : Angle
  lineCount : ℝ
  focalLength : ℝ

/-- Focal length of a zoom level: `Math.min(F_MIN * level, F_MAX)`
(src/types/zoom.ts). -/
noncomputable def zoomFocalLength (level : ℝ) : ℝ := min (F_MIN * level) F_MAX

/-- Constructing `Zoom(zoomLevel)` and calling
`analyzeCameraView(zoom, minPixelGap)`: the `Zoom` constructor rejects
levels below 1; `analyzeCameraView` rejects `minPixelGap > SENSOR_RES_Y`,
special-cases `minPixelGap = SENSOR_RES_Y`, and otherwise runs the distance
search at the default camera height. -/
noncomputable def runAnalysis (zoomLevel minPixelGap : ℝ) :
    Except AnalysisError CameraViewAnalysis :=
  if zoomLevel < 1 then .error .invalidZoomLevel
  else if SENSOR_RES_Y < minPixelGap then .error .impossibleConstraint
  else
    let focalLength := zoomFocalLength zoomLevel
    if minPixelGap = SENSOR_RES_Y then
      .ok ⟨LINE_SPACING, ⟨findOptimalTilt LINE_SPACING focalLength CAMERA_HEIGHT⟩, 1, focalLength⟩
    else
      let result := findMaximumDistanceWithDetails focalLength minPixelGap CAMERA_HEIGHT
      .ok ⟨result.distance, result.optimalAngle, result.lineCount, focalLength⟩

/-! ## Basic numeric facts -/

lemma minTilt_le_maxTilt : minTilt ≤ maxTilt := by
  have h := Real.pi_gt_three
  unfold minTilt maxTilt
  linarith

lemma maxTilt_nonneg : 0 ≤ maxTilt := by
  have h := Real.pi_gt_three
  unfold maxTilt
  linarith

lemma maxTilt_le_pi : maxTilt ≤ Real.pi := by
  have h := Real.pi_gt_three
  unfold maxTilt
  linarith

lemma maxTilt_lt_pi_div_two : maxTilt < Real.pi / 2 := by
  unfold maxTilt
  linarith

lemma clampTilt_mem (t : ℝ) : minTilt ≤ clampTilt t ∧ clampTilt t ≤ maxTilt := by
  unfold clampTilt
  constructor
  · exact le_max_left _ _
  · exact max_le minTilt_le_maxTilt (min_le_left _ _)

lemma clampTilt_eq_self {t : ℝ} (h1 : minTilt ≤ t) (h2 : t ≤ maxTilt) :
    clampTilt t = t := by
  unfold clampTilt
  rw [min_eq_right h2, max_eq_right h1]

lemma clampTilt_maxTilt : clampTilt maxTilt = maxTilt :=
  clampTilt_eq_self minTilt_le_maxTilt le_rfl

lemma sin_001_lb : (0.0099 : ℝ) < Real.sin 0.01 := by
  have h := Real.sin_gt_sub_cube (x := 0.01) (by norm_num) (by norm_num)
  nlinarith

lemma sin_001_ub : Real.sin 0.01 < (0.01 : ℝ) := Real.sin_lt (by norm_num)

lemma cos_001_lb : (0.9999 : ℝ) < Real.cos 0.01 := by
  have h := Real.one_sub_sq_div_two_le_cos (x := 0.01)
  nlinarith

lemma cos_maxTilt_eq : Real.cos maxTilt = Real.sin 0.01 := by
  unfold maxTilt
  exact Real.cos_pi_div_two_sub 0.01

lemma sin_maxTilt_eq : Real.sin maxTilt = Real.cos 0.01 := by
  unfold maxTilt
  exact Real.sin_pi_div_two_sub 0.01

/-- On the clamp interval the cosine is at least `sin 0.01 > 0`. -/
lemma cos_ge_of_mem {θ : ℝ} (h1 : minTilt ≤ θ) (h2 : θ ≤ maxTilt) :
    Real.sin 0.01 ≤ Real.cos θ := by
  have h0 : (0 : ℝ) ≤ θ := le_trans (by norm_num [minTilt]) h1
  have := Real.cos_le_cos_of_nonneg_of_le_pi h0 maxTilt_le_pi h2
  rwa [cos_maxTilt_eq] at this

lemma cos_pos_of_mem {θ : ℝ} (h1 : minTilt ≤ θ) (h2 : θ ≤ maxTilt) :
    0 < Real.cos θ :=
  lt_of_lt_of_le (by nlinarith [sin_001_lb]) (cos_ge_of_mem h1 h2)

lemma sin_nonneg_of_mem {θ : ℝ} (h1 : minTilt ≤ θ) (h2 : θ ≤ maxTilt) :
    0 ≤ Real.sin θ := by
  have h0 : (0 : ℝ) ≤ θ := le_trans (by norm_num [minTilt]) h1
  exact Real.sin_nonneg_of_nonneg_of_le_pi h0 (le_trans h2 maxTilt_le_pi)

/-- On the clamp interval the sine is at least `sin 0.01`. -/
lemma sin_ge_of_mem {θ : ℝ} (h1 : minTilt ≤ θ) (h2 : θ ≤ maxTilt) :
    Real.sin 0.01 ≤ Real.sin θ := by
  have hθ2 : Real.pi / 2 - θ ≤ maxTilt := by
    unfold maxTilt
    have : (0.01 : ℝ) ≤ θ := by simpa [minTilt] using h1
    linarith
  have hθ1 : 0 ≤ Real.pi / 2 - θ := by
    have := le_trans h2 (le_of_lt maxTilt_lt_pi_div_two)
    linarith
  have := Real.cos_le_cos_of_nonneg_of_le_pi hθ1 maxTilt_le_pi hθ2
  rw [cos_maxTilt_eq, Real.cos_pi_div_two_sub] at this
  exact this

/-! ## Sensor height bounds -/

lemma fovHalfRad_bounds : 0 < degToRad (FOV_VERTICAL / 2) ∧
    degToRad (FOV_VERTICAL / 2) < 0.288 := by
  unfold degToRad FOV_VERTICAL
  constructor
  · have := Real.pi_gt_three
    nlinarith
  · have := Real.pi_lt_d6
    nlinarith

lemma SENSOR_HEIGHT_pos : 0 < SENSOR_HEIGHT := by
  obtain ⟨h1, h2⟩ := fovHalfRad_bounds
  have hlt : degToRad (FOV_VERTICAL / 2) < Real.pi / 2 := by
    have := Real.pi_gt_three
    nlinarith
  have := Real.tan_pos_of_pos_of_lt_pi_div_two h1 hlt
  unfold SENSOR_HEIGHT F_MIN
  nlinarith

lemma SENSOR_HEIGHT_lt : SENSOR_HEIGHT < 2.89 := by
  obtain ⟨h1, h2⟩ := fovHalfRad_bounds
  set x := degToRad (FOV_VERTICAL / 2) with hx
  have hsin : Real.sin x < 0.288 := lt_of_lt_of_le (Real.sin_lt h1) (le_of_lt h2)
  have hcos : (0.9585 : ℝ) < Real.cos x := by
    have h := Real.one_sub_sq_div_two_le_cos (x := x)
    nlinarith
  have hcos_pos : (0 : ℝ) < Real.cos x := by nlinarith
  have htan : Real.tan x < 0.30047 := by
    rw [Real.tan_eq_sin_div_cos, div_lt_iff₀ hcos_pos]
    nlinarith
  unfold SENSOR_HEIGHT F_MIN
  rw [← hx]
  nlinarith [Real.tan_pos_of_pos_of_lt_pi_div_two h1
    (by nlinarith [Real.pi_gt_three] : x < Real.pi / 2)]

/-! ## Projection lemmas -/

lemma projectGroundPoint_eq_none_iff (d : ℝ) (p : ProjectionParams) :
    projectGroundPoint d p = none ↔ zCamOf d p ≤ 0 := by
  unfold projectGroundPoint
  split_ifs with h <;> simp [h]

lemma projectGroundPoint_of_pos {d : ℝ} {p : ProjectionParams}
    (h : 0 < zCamOf d p) :
    projectGroundPoint d p = some ⟨SENSOR_RES_X / 2, yRowOf d p⟩ := by
  unfold projectGroundPoint
  rw [if_neg (not_le.mpr h)]

lemma projectGroundPoint_some {d : ℝ} {p : ProjectionParams} {q : Point2D}
    (h : projectGroundPoint d p = some q) :
    0 < zCamOf d p ∧ q = ⟨SENSOR_RES_X / 2, yRowOf d p⟩ := by
  rcases le_or_lt (zCamOf d p) 0 with hz | hz
  · rw [projectGroundPoint, if_pos hz] at h
    cases h
  · rw [projectGroundPoint_of_pos hz] at h
    exact ⟨hz, (Option.some_inj.mp h).symm⟩

/-! ## Newton iteration stays inside the clamp interval -/

lemma newtonIter_mem_of_mem (d f H : ℝ) :
    ∀ (n : Nat) {tilt : ℝ}, minTilt ≤ tilt → tilt ≤ maxTilt →
      minTilt ≤ newtonIter d f H n tilt ∧ newtonIter d f H n tilt ≤ maxTilt := by
  intro n
  induction n with
  | zero => intro tilt h1 h2; simpa [newtonIter] using ⟨h1, h2⟩
  | succ n ih =>
    intro tilt h1 h2
    have hc : clampTilt tilt = tilt := clampTilt_eq_self h1 h2
    simp only [newtonIter, hc]
    cases hp : projectGroundPoint d ⟨f, tilt, H⟩ with
    | none => exact ⟨h1, h2⟩
    | some proj =>
      simp only
      split_ifs with herr
      · exact ⟨h1, h2⟩
      · cases hpd : projectGroundPoint d ⟨f, min maxTilt (tilt + 0.0001), H⟩ with
        | none => exact ⟨h1, h2⟩
        | some projDelta =>
          simp only
          split_ifs with hder
          · exact ih (clampTilt_mem _).1 (clampTilt_mem _).2
          · exact ih h1 h2

lemma newtonIter_mem_succ (d f H : ℝ) (n : Nat) (tilt : ℝ) :
    minTilt ≤ newtonIter d f H (n + 1) tilt ∧
      newtonIter d f H (n + 1) tilt ≤ maxTilt := by
  simp only [newtonIter]
  cases hp : projectGroundPoint d ⟨f, clampTilt tilt, H⟩ with
  | none => exact clampTilt_mem tilt
  | some proj =>
    simp only
    split_ifs with herr
    · exact clampTilt_mem tilt
    · cases hpd : projectGroundPoint d ⟨f, min maxTilt (clampTilt tilt + 0.0001), H⟩ with
      | none => exact clampTilt_mem tilt
      | some projDelta =>
        simp only
        split_ifs with hder
        · exact newtonIter_mem_of_mem d f H n (clampTilt_mem _).1 (clampTilt_mem _).2
        · exact newtonIter_mem_of_mem d f H n (clampTilt_mem _).1 (clampTilt_mem _).2

lemma findOptimalTilt_mem (d f H : ℝ) :
    minTilt ≤ findOptimalTilt d f H ∧ findOptimalTilt d f H ≤ maxTilt := by
  unfold findOptimalTilt
  exact newtonIter_mem_succ d f H 19 _

/-! ## Camera-frame depth bounds over the clamp interval -/

lemma zCamOf_ge {f θ H x : ℝ} (h1 : minTilt ≤ θ) (h2 : θ ≤ maxTilt)
    (hx : 0 ≤ x) (hH : 0 ≤ H) :
    x * Real.sin 0.01 - H ≤ zCamOf x ⟨f, θ, H⟩ := by
  have hcos := cos_ge_of_mem h1 h2
  have hsin : Real.sin θ ≤ 1 := Real.sin_le_one θ
  unfold zCamOf
  simp only
  nlinarith

lemma zCamOf_le {f θ H x : ℝ} (h1 : minTilt ≤ θ) (h2 : θ ≤ maxTilt)
    (hx : 0 ≤ x) (hH : 0 ≤ H) :
    zCamOf x ⟨f, θ, H⟩ ≤ x := by
  have hcos1 : Real.cos θ ≤ 1 := Real.cos_le_one θ
  have hcos0 : 0 < Real.cos θ := cos_pos_of_mem h1 h2
  have hsin := sin_nonneg_of_mem h1 h2
  unfold zCamOf
  simp only
  nlinarith

lemma zCamOf_le_of_bigH {f θ H x : ℝ} (h1 : minTilt ≤ θ) (h2 : θ ≤ maxTilt)
    (hx : 0 ≤ x) (hH : 0 ≤ H) :
    zCamOf x ⟨f, θ, H⟩ ≤ x - H * Real.sin 0.01 := by
  have hcos1 : Real.cos θ ≤ 1 := Real.cos_le_one θ
  have hsin := sin_ge_of_mem h1 h2
  unfold zCamOf
  simp only
  nlinarith

/-! ## The pixel-row difference identity -/

/-- Cross-multiplied form of the ratio difference: for any two distances,
`yCam b * zCam a - yCam a * zCam b = H * (b - a)`. -/
lemma yCam_zCam_cross (p : ProjectionParams) (a b : ℝ) :
    yCamOf b p * zCamOf a p - yCamOf a p * zCamOf b p =
      p.cameraHeight * (b - a) := by
  unfold yCamOf zCamOf
  linear_combination (p.cameraHeight * (b - a)) *
    (Real.sin_sq_add_cos_sq p.tiltAngle)

/-- Difference of the projected ratios of two markings. -/
lemma ratio_sub {p : ProjectionParams} {a b : ℝ}
    (ha : zCamOf a p ≠ 0) (hb : zCamOf b p ≠ 0) :
    yCamOf a p / zCamOf a p - yCamOf b p / zCamOf b p =
      p.cameraHeight * (a - b) / (zCamOf a p * zCamOf b p) := by
  rw [div_sub_div _ _ ha hb]
  congr 1
  linear_combination yCam_zCam_cross p b a

/-- The pixel row written through the projected ratio. -/
lemma yRowOf_sub_ratio (p : ProjectionParams) (a b : ℝ) :
    yRowOf b p - yRowOf a p =
      SENSOR_RES_Y * p.focalLength / SENSOR_HEIGHT *
        (yCamOf a p / zCamOf a p - yCamOf b p / zCamOf b p) := by
  have h2 : SENSOR_HEIGHT / 2 * 2 = SENSOR_HEIGHT := by ring
  unfold yRowOf
  rw [div_div, div_div, h2]
  ring

/-- The exact pixel-row difference between two markings in front of the
lens: `yRow b - yRow a = (RES_Y * f / SENSOR_HEIGHT) * (H * (a - b) / (zCam a * zCam b))`. -/
lemma yRowOf_sub {p : ProjectionParams} {a b : ℝ}
    (ha : zCamOf a p ≠ 0) (hb : zCamOf b p ≠ 0) :
    yRowOf b p - yRowOf a p =
      SENSOR_RES_Y * p.focalLength / SENSOR_HEIGHT *
        (p.cameraHeight * (a - b) / (zCamOf a p * zCamOf b p)) := by
  rw [yRowOf_sub_ratio, ratio_sub ha hb]

/-! ## Floor-to-marker lemmas -/

lemma floorToLine_le {x : ℝ} : floorToLine x ≤ x := by
  unfold floorToLine LINE_SPACING
  have h := Int.floor_le (x / 2)
  linarith

lemma floorToLine_nonneg {x : ℝ} (hx : 0 ≤ x) : 0 ≤ floorToLine x := by
  unfold floorToLine LINE_SPACING
  have h : (0 : ℤ) ≤ ⌊x / 2⌋ := Int.floor_nonneg.mpr (by linarith)
  have h2 : (0 : ℝ) ≤ (⌊x / 2⌋ : ℝ) := by exact_mod_cast h
  linarith

lemma floorToLine_double_nat (m : ℕ) : floorToLine (2 * (m : ℝ)) = 2 * (m : ℝ) := by
  unfold floorToLine LINE_SPACING
  have h : 2 * (m : ℝ) / 2 = (m : ℝ) := by ring
  rw [h, Int.floor_natCast]
  push_cast
  ring

/-! ## Probe evaluation -/

/-- When both markings are in front of the lens the probe returns the
absolute pixel-row difference at the tilt chosen by the solver. -/
lemma feasibleGap_eq_of_pos {f H d : ℝ}
    (h1 : 0 < zCamOf d ⟨f, findOptimalTilt d f H, H⟩)
    (h2 : 0 < zCamOf (d - LINE_SPACING) ⟨f, findOptimalTilt d f H, H⟩) :
    feasibleGap f H d =
      some |yRowOf d ⟨f, findOptimalTilt d f H, H⟩ -
        yRowOf (d - LINE_SPACING) ⟨f, findOptimalTilt d f H, H⟩| := by
  unfold feasibleGap computePixelGap
  rw [projectGroundPoint_of_pos h1, projectGroundPoint_of_pos h2]

/-- When the projection of either marking fails, the probe fails. -/
lemma feasibleGap_eq_none_left {f H d : ℝ}
    (h1 : projectGroundPoint d ⟨f, findOptimalTilt d f H, H⟩ = none) :
    feasibleGap f H d = none := by
  unfold feasibleGap computePixelGap
  rw [h1]

/-! ## Loop invariants -/

lemma expandLoop_bounds (f g H : ℝ) :
    ∀ (n : Nat) (l r : ℝ), 0 ≤ l → 0 < r →
      0 ≤ (expandLoop f g H n (l, r)).1 ∧ 0 < (expandLoop f g H n (l, r)).2 := by
  intro n
  induction n with
  | zero => intro l r hl hr; simpa [expandLoop] using ⟨hl, hr⟩
  | succ n ih =>
    intro l r hl hr
    simp only [expandLoop]
    split_ifs with hd
    · exact ⟨hl, hr⟩
    · cases hfg : feasibleGap f H (floorToLine r) with
      | none => exact ⟨hl, hr⟩
      | some gap =>
        simp only
        split_ifs with hge
        · exact ih r (2 * r) (le_of_lt hr) (by linarith)
        · exact ⟨hl, hr⟩

lemma bisectLoop_bounds (f g H : ℝ) :
    ∀ (n : Nat) (l r : ℝ), 0 ≤ l → 0 ≤ r →
      0 ≤ (bisectLoop f g H n (l, r)).1 ∧ 0 ≤ (bisectLoop f g H n (l, r)).2 := by
  intro n
  induction n with
  | zero => intro l r hl hr; simpa [bisectLoop] using ⟨hl, hr⟩
  | succ n ih =>
    intro l r hl hr
    simp only [bisectLoop]
    split_ifs with htol hd
    · exact ⟨hl, hr⟩
    · exact ih _ _ (by linarith) hr
    · cases hfg : feasibleGap f H (floorToLine ((l + r) / 2)) with
      | none => exact ih _ _ hl (by linarith)
      | some gap =>
        simp only
        split_ifs with hge
        · exact ih _ _ (by linarith) hr
        · exact ih _ _ hl (by linarith)

lemma bisectLoop_le (f g H B : ℝ) :
    ∀ (n : Nat) (l r : ℝ), l ≤ B → r ≤ B →
      (bisectLoop f g H n (l, r)).1 ≤ B ∧ (bisectLoop f g H n (l, r)).2 ≤ B := by
  intro n
  induction n with
  | zero => intro l r hl hr; simpa [bisectLoop] using ⟨hl, hr⟩
  | succ n ih =>
    intro l r hl hr
    simp only [bisectLoop]
    split_ifs with htol hd
    · exact ⟨hl, hr⟩
    · exact ih _ _ (by linarith) hr
    · cases hfg : feasibleGap f H (floorToLine ((l + r) / 2)) with
      | none => exact ih _ _ hl (by linarith)
      | some gap =>
        simp only
        split_ifs with hge
        · exact ih _ _ (by linarith) hr
        · exact ih _ _ hl (by linarith)

/-- The final left bound of the whole search is non-negative. -/
lemma searchBounds_fst_nonneg (f g H : ℝ) : 0 ≤ (searchBounds f g H).1 := by
  unfold searchBounds
  obtain ⟨h1, h2⟩ := expandLoop_bounds f g H 50 0 1000 le_rfl (by norm_num)
  obtain ⟨h3, _⟩ := bisectLoop_bounds f g H bisectFuel
    (expandLoop f g H 50 (0, 1000)).1 (expandLoop f g H 50 (0, 1000)).2 h1 (le_of_lt h2)
  simpa using h3

/-! ## A family of inputs on which every expansion probe is feasible

With focal length `10^36`, camera height `1` and required gap `1`, every
probe distance reachable by the 50 doublings (at most `1000 * 2 ^ 49`) is
feasible regardless of which tilt inside the clamp interval the solver
returns, so the expansion provably exhausts its entire doubling budget. -/

/-- For any tilt inside the clamp interval, both probe markings at a
distance between `1000` and `1000 * 2 ^ 49` are in front of the lens and
their pixel gap is at least one pixel, at focal length `10^36` and camera
height `1`. -/
lemma gap_ge_one_aux {θ d : ℝ} (hθ1 : minTilt ≤ θ) (hθ2 : θ ≤ maxTilt)
    (hlb : 1000 ≤ d) (hub : d ≤ 562949953421312000) :
    0 < zCamOf d ⟨10 ^ 36, θ, 1⟩ ∧ 0 < zCamOf (d - LINE_SPACING) ⟨10 ^ 36, θ, 1⟩ ∧
      1 ≤ |yRowOf d ⟨10 ^ 36, θ, 1⟩ - yRowOf (d - LINE_SPACING) ⟨10 ^ 36, θ, 1⟩| := by
  have hs001 := sin_001_lb
  have hs001' : Real.sin 0.01 ≤ 1 := Real.sin_le_one _
  have hls : (LINE_SPACING : ℝ) = 2 := by norm_num [LINE_SPACING]
  set p : ProjectionParams := ⟨10 ^ 36, θ, 1⟩ with hp
  have hz1_lb : d * Real.sin 0.01 - 1 ≤ zCamOf d p :=
    zCamOf_ge hθ1 hθ2 (by linarith) (by norm_num)
  have hz2_lb : (d - LINE_SPACING) * Real.sin 0.01 - 1 ≤ zCamOf (d - LINE_SPACING) p :=
    zCamOf_ge hθ1 hθ2 (by rw [hls]; linarith) (by norm_num)
  have hz1_pos : 0 < zCamOf d p := by nlinarith
  have hz2_pos : 0 < zCamOf (d - LINE_SPACING) p := by rw [hls] at hz2_lb ⊢; nlinarith
  have hz1_ub : zCamOf d p ≤ d := zCamOf_le hθ1 hθ2 (by linarith) (by norm_num)
  have hz2_ub : zCamOf (d - LINE_SPACING) p ≤ d - LINE_SPACING :=
    zCamOf_le hθ1 hθ2 (by rw [hls]; linarith) (by norm_num)
  refine ⟨hz1_pos, hz2_pos, ?_⟩
  have hprod_pos : 0 < zCamOf d p * zCamOf (d - LINE_SPACING) p :=
    mul_pos hz1_pos hz2_pos
  have hdiff := yRowOf_sub (p := p) (a := d) (b := d - LINE_SPACING)
    (ne_of_gt hz1_pos) (ne_of_gt hz2_pos)
  have hfocal : p.focalLength = 10 ^ 36 := rfl
  have hheight : p.cameraHeight = 1 := rfl
  rw [hfocal, hheight] at hdiff
  have hval : yRowOf (d - LINE_SPACING) p - yRowOf d p =
      SENSOR_RES_Y * 10 ^ 36 / SENSOR_HEIGHT * 2 /
        (zCamOf d p * zCamOf (d - LINE_SPACING) p) := by
    rw [hdiff, hls]
    ring
  have hKpos : (0 : ℝ) < SENSOR_RES_Y * 10 ^ 36 / SENSOR_HEIGHT * 2 := by
    have h1 := SENSOR_HEIGHT_pos
    have h2 : (0 : ℝ) < SENSOR_RES_Y * 10 ^ 36 := by norm_num [SENSOR_RES_Y]
    positivity
  have hdiff_pos : 0 < yRowOf (d - LINE_SPACING) p - yRowOf d p := by
    rw [hval]
    exact div_pos hKpos hprod_pos
  rw [abs_sub_comm, abs_of_pos hdiff_pos, hval, le_div_iff₀ hprod_pos, one_mul]
  have hd0 : (0 : ℝ) ≤ d := by linarith
  have hzz : zCamOf d p * zCamOf (d - LINE_SPACING) p ≤ d * d := by
    have h1 : zCamOf (d - LINE_SPACING) p ≤ d := le_trans hz2_ub (by rw [hls]; linarith)
    nlinarith
  have hdd : d * d ≤ 562949953421312000 * 562949953421312000 := by nlinarith
  have hKlb : 1440 * 10 ^ 36 / 2.89 ≤ SENSOR_RES_Y * 10 ^ 36 / SENSOR_HEIGHT := by
    rw [div_le_div_iff₀ (by norm_num) SENSOR_HEIGHT_pos]
    have h1 := SENSOR_HEIGHT_lt
    have h2 := SENSOR_HEIGHT_pos
    unfold SENSOR_RES_Y
    nlinarith
  calc zCamOf d p * zCamOf (d - LINE_SPACING) p
      ≤ 562949953421312000 * 562949953421312000 := le_trans hzz hdd
    _ ≤ 1440 * 10 ^ 36 / 2.89 * 2 := by norm_num
    _ ≤ SENSOR_RES_Y * 10 ^ 36 / SENSOR_HEIGHT * 2 := by linarith

/-- At focal length `10^36` and camera height `1`, the probe succeeds and
returns a gap of at least one pixel for every distance between `1000` and
`1000 * 2 ^ 49`. -/
lemma probe_strong {d : ℝ} (hlb : 1000 ≤ d) (hub : d ≤ 562949953421312000) :
    ∃ gv, feasibleGap (10 ^ 36) 1 d = some gv ∧ 1 ≤ gv := by
  obtain ⟨hθ1, hθ2⟩ := findOptimalTilt_mem d (10 ^ 36) 1
  obtain ⟨h1, h2, h3⟩ := gap_ge_one_aux hθ1 hθ2 hlb hub
  exact ⟨_, feasibleGap_eq_of_pos h1 h2, h3⟩

/-- With every probe feasible, the expansion loop spends its whole fuel
doubling the upper bound. -/
lemma expandLoop_all_feasible :
    ∀ (n k : ℕ) (l : ℝ), n + 1 + k ≤ 50 →
      expandLoop (10 ^ 36) 1 1 (n + 1) (l, ((1000 * 2 ^ k : ℕ) : ℝ)) =
        (((1000 * 2 ^ (k + n) : ℕ) : ℝ), ((1000 * 2 ^ (k + n + 1) : ℕ) : ℝ)) := by
  have hstep : ∀ (n k : ℕ) (l : ℝ), k ≤ 49 →
      expandLoop (10 ^ 36) 1 1 (n + 1) (l, ((1000 * 2 ^ k : ℕ) : ℝ)) =
        expandLoop (10 ^ 36) 1 1 n
          (((1000 * 2 ^ k : ℕ) : ℝ), ((1000 * 2 ^ (k + 1) : ℕ) : ℝ)) := by
    intro n k l hk49
    set r : ℝ := ((1000 * 2 ^ k : ℕ) : ℝ) with hr
    have hrlb : (1000 : ℝ) ≤ r := by
      rw [hr]
      have : (1000 : ℕ) ≤ 1000 * 2 ^ k :=
        Nat.le_mul_of_pos_right 1000 (Nat.pos_pow_of_pos k (by norm_num))
      exact_mod_cast this
    have hrub : r ≤ 562949953421312000 := by
      rw [hr]
      have h1 : (1000 * 2 ^ k : ℕ) ≤ 1000 * 2 ^ 49 :=
        Nat.mul_le_mul_left 1000 (Nat.pow_le_pow_right (by norm_num) hk49)
      have h2 : (1000 * 2 ^ 49 : ℕ) = 562949953421312000 := by norm_num
      calc ((1000 * 2 ^ k : ℕ) : ℝ) ≤ ((1000 * 2 ^ 49 : ℕ) : ℝ) := by exact_mod_cast h1
        _ = 562949953421312000 := by rw [h2]; norm_num
    have hfl : floorToLine r = r := by
      have hcast : r = 2 * ((500 * 2 ^ k : ℕ) : ℝ) := by rw [hr]; push_cast; ring
      rw [hcast, floorToLine_double_nat]
    obtain ⟨gv, hsome, hge⟩ := probe_strong hrlb hrub
    have h2r : 2 * r = ((1000 * 2 ^ (k + 1) : ℕ) : ℝ) := by rw [hr]; push_cast; ring
    rw [← h2r]
    simp only [expandLoop, hfl, hsome]
    rw [if_neg (by push_neg; linarith), if_pos hge]
  intro n
  induction n with
  | zero =>
    intro k l hbound
    rw [hstep 0 k l (by omega)]
    simp only [expandLoop, Nat.add_zero]
  | succ m ih =>
    intro k l hbound
    rw [hstep (m + 1) k l (by omega), ih (k + 1) _ (by omega)]
    have e1 : k + 1 + m = k + (m + 1) := by omega
    rw [e1]

/-- The expansion at focal length `10^36`, gap requirement `1`, camera
height `1` exhausts all 50 doublings and exits at the iteration cap with
bounds `(1000 * 2 ^ 49, 1000 * 2 ^ 50)` — silently, no error value exists
in its codomain. -/
lemma expandLoop_cap_hit :
    expandLoop (10 ^ 36) 1 1 50 (0, 1000) =
      (562949953421312000, 1125899906842624000) := by
  have h0 : (1000 : ℝ) = ((1000 * 2 ^ 0 : ℕ) : ℝ) := by norm_num
  rw [h0]
  rw [expandLoop_all_feasible 49 0 0 (by norm_num)]
  norm_num

/-! ## Claim theorems -/

/-- C2: for every ground distance, focal length, tilt angle and camera
height with the point in front of the lens, `projectGroundPoint` computes
`Ycam = -H·cos θ - d·sin θ`, `Zcam = -H·sin θ + d·cos θ`,
`Yimg = f·(Ycam/Zcam)` and the pixel row
`(0.5 - Yimg / SENSOR_HEIGHT) · SENSOR_RES_Y`, where `SENSOR_HEIGHT` is
the physical sensor height derived from the reference field of view at the
base focal length. -/
theorem C2_projection_formula (d f θ H : ℝ)
    (hz : 0 < -H * Real.sin θ + d * Real.cos θ) :
    projectGroundPoint d ⟨f, θ, H⟩ =
      some ⟨SENSOR_RES_X / 2,
        (0.5 - f * ((-H * Real.cos θ - d * Real.sin θ) /
            (-H * Real.sin θ + d * Real.cos θ)) / SENSOR_HEIGHT) * SENSOR_RES_Y⟩ := by
  have hz' : 0 < zCamOf d ⟨f, θ, H⟩ := by
    show 0 < -H * Real.sin θ + d * Real.cos θ
    exact hz
  rw [projectGroundPoint_of_pos hz']
  congr 1
  show (⟨SENSOR_RES_X / 2, yRowOf d ⟨f, θ, H⟩⟩ : Point2D) = _
  congr 1
  show (0.5 + -(f * (yCamOf d ⟨f, θ, H⟩ / zCamOf d ⟨f, θ, H⟩)) / (SENSOR_HEIGHT / 2) / 2) *
      SENSOR_RES_Y = _
  rw [div_div, show SENSOR_HEIGHT / 2 * 2 = SENSOR_HEIGHT from by ring]
  show (0.5 + -(f * ((-H * Real.cos θ - d * Real.sin θ) /
      (-H * Real.sin θ + d * Real.cos θ))) / SENSOR_HEIGHT) * SENSOR_RES_Y = _
  ring

/-- Witness for C2 at `d = 1`, `f = 2`, `θ = 0`, `H = 5`. -/
theorem C2_witness :
    (0 : ℝ) < -5 * Real.sin 0 + 1 * Real.cos 0 ∧
      projectGroundPoint 1 ⟨2, 0, 5⟩ =
        some ⟨SENSOR_RES_X / 2,
          (0.5 - 2 * ((-5 * Real.cos 0 - 1 * Real.sin 0) /
              (-5 * Real.sin 0 + 1 * Real.cos 0)) / SENSOR_HEIGHT) * SENSOR_RES_Y⟩ := by
  have h : (0 : ℝ) < -5 * Real.sin 0 + 1 * Real.cos 0 := by
    simp [Real.sin_zero, Real.cos_zero]
  exact ⟨h, C2_projection_formula 1 2 0 5 h⟩

/-- C3: for positive focal length and camera height, of two ground
distances whose camera-frame depths are both positive (both projections
succeed), the nearer marking projects to a strictly larger pixel row than
the farther one. -/
theorem C3_nearer_marking_larger_row (f H θ d₁ d₂ : ℝ) (p₁ p₂ : Point2D)
    (hf : 0 < f) (hH : 0 < H) (hd : d₁ < d₂)
    (h1 : projectGroundPoint d₁ ⟨f, θ, H⟩ = some p₁)
    (h2 : projectGroundPoint d₂ ⟨f, θ, H⟩ = some p₂) :
    p₂.y < p₁.y := by
  obtain ⟨hz1, hp1⟩ := projectGroundPoint_some h1
  obtain ⟨hz2, hp2⟩ := projectGroundPoint_some h2
  have hdiff := yRowOf_sub (p := ⟨f, θ, H⟩) (a := d₁) (b := d₂)
    (ne_of_gt hz1) (ne_of_gt hz2)
  have hK : 0 < SENSOR_RES_Y * f / SENSOR_HEIGHT := by
    apply div_pos _ SENSOR_HEIGHT_pos
    have : (0 : ℝ) < SENSOR_RES_Y := by norm_num [SENSOR_RES_Y]
    exact mul_pos this hf
  have hneg : yRowOf d₂ ⟨f, θ, H⟩ - yRowOf d₁ ⟨f, θ, H⟩ < 0 := by
    rw [hdiff]
    apply mul_neg_of_pos_of_neg hK
    apply div_neg_of_neg_of_pos
    · show H * (d₁ - d₂) < 0
      nlinarith
    · exact mul_pos hz1 hz2
  rw [hp1, hp2]
  show yRowOf d₂ ⟨f, θ, H⟩ < yRowOf d₁ ⟨f, θ, H⟩
  linarith

/-- Witness for C3 at `θ = 0`, `f = H = 1`, `d₁ = 1`, `d₂ = 2`. -/
theorem C3_witness : yRowOf 2 ⟨1, 0, 1⟩ < yRowOf 1 ⟨1, 0, 1⟩ := by
  have hz1 : 0 < zCamOf 1 ⟨1, 0, 1⟩ := by
    show (0 : ℝ) < -1 * Real.sin 0 + 1 * Real.cos 0
    simp [Real.sin_zero, Real.cos_zero]
  have hz2 : 0 < zCamOf 2 ⟨1, 0, 1⟩ := by
    show (0 : ℝ) < -1 * Real.sin 0 + 2 * Real.cos 0
    simp [Real.sin_zero, Real.cos_zero]
  exact C3_nearer_marking_larger_row 1 1 0 1 2 _ _ (by norm_num) (by norm_num)
    (by norm_num) (projectGroundPoint_of_pos hz1) (projectGroundPoint_of_pos hz2)

/-- C10: whenever `projectGroundPoint` returns a point, the point's
x-coordinate is `SENSOR_RES_X / 2` — the projection only varies the pixel
row. -/
theorem C10_x_always_centered (d : ℝ) (pr : ProjectionParams) (p : Point2D)
    (h : projectGroundPoint d pr = some p) : p.x = SENSOR_RES_X / 2 := by
  obtain ⟨_, hp⟩ := projectGroundPoint_some h
  rw [hp]

/-- Witness for C10 at `d = 1`, `f = 1`, `θ = 0`, `H = 1`. -/
theorem C10_witness :
    (projectGroundPoint 1 ⟨1, 0, 1⟩).map Point2D.x = some (SENSOR_RES_X / 2) := by
  have hz : 0 < zCamOf 1 ⟨1, 0, 1⟩ := by
    show (0 : ℝ) < -1 * Real.sin 0 + 1 * Real.cos 0
    simp [Real.sin_zero, Real.cos_zero]
  have h := projectGroundPoint_of_pos hz
  rw [h]
  exact congrArg some (C10_x_always_centered 1 ⟨1, 0, 1⟩ _ h)

/-- C4: `projectGroundPoint` fails exactly when `Zcam ≤ 0`, and the failure
is local and recoverable: a failed projection makes the Newton iteration
break out returning its current (clamped) estimate, makes the expansion
loop stop with its current bounds, makes the bisection treat the probe as
infeasible (`right := mid`), and the analysis as a whole only ever surfaces
the two validation errors — never a behind-camera failure. -/
theorem C4_behind_camera_local_recoverable :
    (∀ (d : ℝ) (pr : ProjectionParams),
        projectGroundPoint d pr = none ↔ zCamOf d pr ≤ 0)
    ∧ (∀ (d f H tilt : ℝ) (n : Nat),
        projectGroundPoint d ⟨f, clampTilt tilt, H⟩ = none →
          newtonIter d f H (n + 1) tilt = clampTilt tilt)
    ∧ (∀ (f g H l r : ℝ) (n : Nat), ¬ floorToLine r ≤ 0 →
        feasibleGap f H (floorToLine r) = none →
          expandLoop f g H (n + 1) (l, r) = (l, r))
    ∧ (∀ (f g H l r : ℝ) (n : Nat), ¬ r - l ≤ DISTANCE_TOLERANCE →
        ¬ floorToLine ((l + r) / 2) ≤ 0 →
        feasibleGap f H (floorToLine ((l + r) / 2)) = none →
          bisectLoop f g H (n + 1) (l, r) = bisectLoop f g H n (l, (l + r) / 2))
    ∧ (∀ zoomLevel minPixelGap : ℝ,
        (∃ res, runAnalysis zoomLevel minPixelGap = .ok res) ∨
          runAnalysis zoomLevel minPixelGap = .error .invalidZoomLevel ∨
          runAnalysis zoomLevel minPixelGap = .error .impossibleConstraint) := by
  refine ⟨projectGroundPoint_eq_none_iff, ?_, ?_, ?_, ?_⟩
  · intro d f H tilt n h
    simp only [newtonIter, h]
  · intro f g H l r n h1 h2
    simp only [expandLoop, h2, if_neg h1]
  · intro f g H l r n h1 h2 h3
    simp only [bisectLoop, h3, if_neg h1, if_neg h2]
  · intro z g
    unfold runAnalysis
    split_ifs with h1 h2 h3
    · exact .inr (.inl rfl)
    · exact .inr (.inr rfl)
    · exact .inl ⟨_, rfl⟩
    · exact .inl ⟨_, rfl⟩

/-- Witness for C4: a point at distance `0` seen at the clamped maximal
tilt is behind the camera; the Newton step returns the clamped tilt there,
and the expansion at camera height `10^6` stops on the failed probe. -/
theorem C4_witness :
    projectGroundPoint 0 ⟨1, Real.pi / 2, 1⟩ = none ∧
      newtonIter 0 1 1 1 (Real.pi / 2) = clampTilt (Real.pi / 2) ∧
      expandLoop 1 5 1000000 1 (0, 2) = (0, 2) := by
  obtain ⟨c1, c2, c3, _, _⟩ := C4_behind_camera_local_recoverable
  have hsin_max : (0 : ℝ) < Real.sin maxTilt := by
    rw [sin_maxTilt_eq]
    linarith [cos_001_lb]
  have hclamp : clampTilt (Real.pi / 2) = maxTilt := by
    unfold clampTilt
    rw [min_eq_left (le_of_lt maxTilt_lt_pi_div_two),
      max_eq_right minTilt_le_maxTilt]
  refine ⟨?_, ?_, ?_⟩
  · refine (c1 0 ⟨1, Real.pi / 2, 1⟩).mpr ?_
    show -1 * Real.sin (Real.pi / 2) + 0 * Real.cos (Real.pi / 2) ≤ 0
    rw [Real.sin_pi_div_two]
    norm_num
  · refine c2 0 1 1 (Real.pi / 2) 0 ?_
    rw [hclamp]
    refine (c1 0 ⟨1, maxTilt, 1⟩).mpr ?_
    show -1 * Real.sin maxTilt + 0 * Real.cos maxTilt ≤ 0
    nlinarith
  · have hfl : floorToLine 2 = 2 := by
      have h : (2 : ℝ) = 2 * ((1 : ℕ) : ℝ) := by norm_num
      rw [h, floorToLine_double_nat]
    refine c3 1 5 1000000 0 2 0 (by rw [hfl]; norm_num) ?_
    rw [hfl]
    apply feasibleGap_eq_none_left
    obtain ⟨ht1, ht2⟩ := findOptimalTilt_mem 2 1 1000000
    refine (c1 _ _).mpr ?_
    have := zCamOf_le_of_bigH (x := 2) (f := 1) (H := 1000000) ht1 ht2
      (by norm_num) (by norm_num)
    nlinarith [sin_001_lb]

/-- C8: the tilt solver clamps every estimate into `[0.01, π/2 - 0.01]`
(an interval strictly inside `(0, π/2)`) and always returns a value; an
iteration whose pixel error is already below one pixel stops early
returning the current clamped estimate; and an iteration whose
finite-difference derivative is numerically negligible (`≤ 1e-6` in
absolute value) leaves the estimate unchanged instead of dividing by it.
The initial guess `atan(H / d)`, the damping factor `0.5`, the `1e-4`
perturbation and the 20-iteration budget are part of the definitions
`findOptimalTilt` and `newtonIter`. -/
theorem C8_tilt_solver_structure :
    (∀ d f H : ℝ, 0 < d → 0 < f →
        minTilt ≤ findOptimalTilt d f H ∧ findOptimalTilt d f H ≤ maxTilt)
    ∧ (∀ (d f H tilt : ℝ) (n : Nat) (proj : Point2D),
        projectGroundPoint d ⟨f, clampTilt tilt, H⟩ = some proj →
        |proj.y - targetPixel| < 1 →
          newtonIter d f H (n + 1) tilt = clampTilt tilt)
    ∧ (∀ (d f H tilt : ℝ) (n : Nat) (proj projDelta : Point2D),
        projectGroundPoint d ⟨f, clampTilt tilt, H⟩ = some proj →
        ¬ |proj.y - targetPixel| < 1 →
        projectGroundPoint d ⟨f, min maxTilt (clampTilt tilt + 0.0001), H⟩ = some projDelta →
        ¬ 0.000001 < |(projDelta.y - proj.y) / 0.0001| →
          newtonIter d f H (n + 1) tilt = newtonIter d f H n (clampTilt tilt)) := by
  refine ⟨fun d f H _ _ => findOptimalTilt_mem d f H, ?_, ?_⟩
  · intro d f H tilt n proj hproj herr
    simp only [newtonIter, hproj, if_pos herr]
  · intro d f H tilt n proj projDelta hproj herr hprojDelta hder
    simp only [newtonIter, hproj, if_neg herr, hprojDelta, if_neg hder]

/-- Witness for C8: the clamp bounds at `(3, SENSOR_HEIGHT/5, 1)`; an
early stop at tilt `π/4`, where the marking at distance 3 projects exactly
to the target pixel row 1296; and a no-update step at the upper clamp,
where the perturbed tilt coincides with the current one so the finite
difference is exactly zero. -/
theorem C8_witness :
    (minTilt ≤ findOptimalTilt 3 (SENSOR_HEIGHT / 5) 1 ∧
      findOptimalTilt 3 (SENSOR_HEIGHT / 5) 1 ≤ maxTilt) ∧
    newtonIter 3 (SENSOR_HEIGHT / 5) 1 20 (Real.pi / 4) = clampTilt (Real.pi / 4) ∧
    newtonIter 10000 1 1 1 maxTilt = newtonIter 10000 1 1 0 maxTilt := by
  obtain ⟨c1, c2, c3⟩ := C8_tilt_solver_structure
  have hpi := Real.pi_gt_three
  have hclamp4 : clampTilt (Real.pi / 4) = Real.pi / 4 := by
    apply clampTilt_eq_self
    · show (0.01 : ℝ) ≤ Real.pi / 4
      linarith
    · show Real.pi / 4 ≤ maxTilt
      unfold maxTilt
      linarith
  have hs2pos : (0 : ℝ) < Real.sqrt 2 := Real.sqrt_pos.mpr (by norm_num)
  have hs2 : Real.sqrt 2 ≠ 0 := ne_of_gt hs2pos
  have hz4 : zCamOf 3 ⟨SENSOR_HEIGHT / 5, Real.pi / 4, 1⟩ = Real.sqrt 2 := by
    show -1 * Real.sin (Real.pi / 4) + 3 * Real.cos (Real.pi / 4) = Real.sqrt 2
    rw [Real.sin_pi_div_four, Real.cos_pi_div_four]
    ring
  have hratio : (-1 * Real.cos (Real.pi / 4) - 3 * Real.sin (Real.pi / 4)) /
      (-1 * Real.sin (Real.pi / 4) + 3 * Real.cos (Real.pi / 4)) = -2 := by
    rw [Real.sin_pi_div_four, Real.cos_pi_div_four]
    rw [div_eq_iff (by rw [show -1 * (Real.sqrt 2 / 2) + 3 * (Real.sqrt 2 / 2) =
      Real.sqrt 2 from by ring]; exact hs2)]
    ring
  have hSh := SENSOR_HEIGHT_pos
  have hy4 : yRowOf 3 ⟨SENSOR_HEIGHT / 5, Real.pi / 4, 1⟩ = 1296 := by
    show (0.5 + -(SENSOR_HEIGHT / 5 * ((-1 * Real.cos (Real.pi / 4) -
        3 * Real.sin (Real.pi / 4)) / (-1 * Real.sin (Real.pi / 4) +
        3 * Real.cos (Real.pi / 4)))) / (SENSOR_HEIGHT / 2) / 2) * SENSOR_RES_Y = 1296
    rw [hratio, show SENSOR_RES_Y = (1440 : ℝ) from rfl]
    field_simp
    ring
  have hproj4 : projectGroundPoint 3 ⟨SENSOR_HEIGHT / 5, clampTilt (Real.pi / 4), 1⟩ =
      some ⟨SENSOR_RES_X / 2, yRowOf 3 ⟨SENSOR_HEIGHT / 5, Real.pi / 4, 1⟩⟩ := by
    rw [hclamp4]
    exact projectGroundPoint_of_pos (by rw [hz4]; exact hs2pos)
  have herr4 : |(⟨SENSOR_RES_X / 2, yRowOf 3 ⟨SENSOR_HEIGHT / 5, Real.pi / 4, 1⟩⟩ :
      Point2D).y - targetPixel| < 1 := by
    show |yRowOf 3 ⟨SENSOR_HEIGHT / 5, Real.pi / 4, 1⟩ - targetPixel| < 1
    rw [hy4, show targetPixel = (1296 : ℝ) from by norm_num [targetPixel, SENSOR_RES_Y]]
    norm_num
  -- the no-update step at the upper clamp
  have hzm_eq : zCamOf 10000 ⟨1, maxTilt, 1⟩ =
      -Real.cos 0.01 + 10000 * Real.sin 0.01 := by
    show -1 * Real.sin maxTilt + 10000 * Real.cos maxTilt = _
    rw [sin_maxTilt_eq, cos_maxTilt_eq]
    ring
  have hzm_pos : 0 < zCamOf 10000 ⟨1, maxTilt, 1⟩ := by
    rw [hzm_eq]
    nlinarith [sin_001_lb, Real.cos_le_one (0.01 : ℝ)]
  have hzm_ub : zCamOf 10000 ⟨1, maxTilt, 1⟩ ≤ 100 := by
    rw [hzm_eq]
    nlinarith [sin_001_ub, cos_001_lb]
  have hY_lb : 9999 ≤ -(yCamOf 10000 ⟨1, maxTilt, 1⟩) := by
    show 9999 ≤ -(-1 * Real.cos maxTilt - 10000 * Real.sin maxTilt)
    rw [sin_maxTilt_eq, cos_maxTilt_eq]
    nlinarith [cos_001_lb, sin_001_lb]
  have hyform : yRowOf 10000 ⟨1, maxTilt, 1⟩ =
      (0.5 + (-(yCamOf 10000 ⟨1, maxTilt, 1⟩) / zCamOf 10000 ⟨1, maxTilt, 1⟩) /
        SENSOR_HEIGHT) * SENSOR_RES_Y := by
    unfold yRowOf
    rw [div_div, show SENSOR_HEIGHT / 2 * 2 = SENSOR_HEIGHT from by ring]
    ring
  have hrat : 99 ≤ -(yCamOf 10000 ⟨1, maxTilt, 1⟩) / zCamOf 10000 ⟨1, maxTilt, 1⟩ := by
    rw [le_div_iff₀ hzm_pos]
    nlinarith
  have hterm : 34 ≤ -(yCamOf 10000 ⟨1, maxTilt, 1⟩) / zCamOf 10000 ⟨1, maxTilt, 1⟩ /
      SENSOR_HEIGHT := by
    rw [le_div_iff₀ SENSOR_HEIGHT_pos]
    nlinarith [SENSOR_HEIGHT_lt]
  have herrm : ¬ |(⟨SENSOR_RES_X / 2, yRowOf 10000 ⟨1, maxTilt, 1⟩⟩ : Point2D).y -
      targetPixel| < 1 := by
    rw [not_lt]
    have h1 : 1 ≤ yRowOf 10000 ⟨1, maxTilt, 1⟩ - targetPixel := by
      rw [hyform, show targetPixel = (1296 : ℝ) from by norm_num [targetPixel, SENSOR_RES_Y],
        show SENSOR_RES_Y = (1440 : ℝ) from rfl]
      nlinarith
    exact le_trans h1 (le_abs_self _)
  have hmin : min maxTilt (clampTilt maxTilt + 0.0001) = maxTilt := by
    rw [clampTilt_maxTilt]
    exact min_eq_left (by linarith)
  have hprojm : projectGroundPoint 10000 ⟨1, clampTilt maxTilt, 1⟩ =
      some ⟨SENSOR_RES_X / 2, yRowOf 10000 ⟨1, maxTilt, 1⟩⟩ := by
    rw [clampTilt_maxTilt]
    exact projectGroundPoint_of_pos hzm_pos
  have hprojDeltam : projectGroundPoint 10000
      ⟨1, min maxTilt (clampTilt maxTilt + 0.0001), 1⟩ =
      some ⟨SENSOR_RES_X / 2, yRowOf 10000 ⟨1, maxTilt, 1⟩⟩ := by
    rw [hmin]
    exact projectGroundPoint_of_pos hzm_pos
  have hderm : ¬ (0.000001 : ℝ) <
      |((⟨SENSOR_RES_X / 2, yRowOf 10000 ⟨1, maxTilt, 1⟩⟩ : Point2D).y -
        (⟨SENSOR_RES_X / 2, yRowOf 10000 ⟨1, maxTilt, 1⟩⟩ : Point2D).y) / 0.0001| := by
    norm_num
  refine ⟨c1 3 (SENSOR_HEIGHT / 5) 1 (by norm_num) (by positivity), ?_, ?_⟩
  · exact c2 3 (SENSOR_HEIGHT / 5) 1 (Real.pi / 4) 19 _ hproj4 herr4
  · have := c3 10000 1 1 maxTilt 0 _ _ hprojm herrm hprojDeltam hderm
    rwa [clampTilt_maxTilt] at this

/-- C1 counterexample: at focal length `10^36 > 0`, camera height `1 > 0`
and `minPixelGap = 1` (strictly between 0 and the vertical resolution
1440), the expansion provably performs all 50 doublings — the cap is hit —
and yet `findMaximumDistance` silently returns an ordinary bounded real
result instead of raising an internal computation error, refuting the
claim's "treated as an internal computation error, not a silent
truncation". -/
theorem C1_counterexample :
    expandLoop (10 ^ 36) 1 1 50 (0, 1000) =
      (562949953421312000, 1125899906842624000) ∧
    findMaximumDistance (10 ^ 36) 1 1 ≤ 1125899906842624000 := by
  refine ⟨expandLoop_cap_hit, ?_⟩
  unfold findMaximumDistance searchBounds
  rw [expandLoop_cap_hit]
  have hle := bisectLoop_le (10 ^ 36) 1 1 1125899906842624000 bisectFuel
    562949953421312000 1125899906842624000 (by norm_num) le_rfl
  exact le_trans floorToLine_le hle.1

/-- C1 (amended): the search establishes its interval from the modest
initial bound 1000 by doubling while the probe is feasible, with at most
50 doublings; hitting the doubling cap is NOT treated as an error — the
expansion simply stops with its current bounds and the bisection and floor
rounding proceed on them, silently. -/
theorem C1_amended_expansion_silent_cap :
    (∀ (f g H l r gv : ℝ) (n : Nat), ¬ floorToLine r ≤ 0 →
        feasibleGap f H (floorToLine r) = some gv → g ≤ gv →
          expandLoop f g H (n + 1) (l, r) = expandLoop f g H n (r, 2 * r))
    ∧ (∀ (f g H : ℝ) (s : ℝ × ℝ), expandLoop f g H 0 s = s)
    ∧ (∀ f g H : ℝ, findMaximumDistance f g H =
        floorToLine (bisectLoop f g H bisectFuel (expandLoop f g H 50 (0, 1000))).1) := by
  refine ⟨?_, ?_, ?_⟩
  · intro f g H l r gv n h1 h2 h3
    simp only [expandLoop, h2, if_neg h1, if_pos h3]
  · intro f g H s
    simp only [expandLoop]
  · intro f g H
    rfl

/-- Witness for C1's amended statement: the first doubling step at the
counterexample input, and the silent stop on fuel exhaustion. -/
theorem C1_witness :
    expandLoop (10 ^ 36) 1 1 1 (0, 1000) = expandLoop (10 ^ 36) 1 1 0 (1000, 2 * 1000) ∧
      expandLoop (10 ^ 36) 1 1 0 (1000, 2000) = (1000, 2000) := by
  obtain ⟨c1, c2, _⟩ := C1_amended_expansion_silent_cap
  have hfl : floorToLine (1000 : ℝ) = 1000 := by
    rw [show (1000 : ℝ) = 2 * ((500 : ℕ) : ℝ) from by norm_num, floorToLine_double_nat]
  obtain ⟨gv, hsome, hge⟩ := probe_strong (le_refl (1000 : ℝ)) (by norm_num)
  refine ⟨c1 (10 ^ 36) 1 1 0 1000 gv 0 ?_ ?_ hge, c2 (10 ^ 36) 1 1 (1000, 2000)⟩
  · rw [hfl]; norm_num
  · rw [hfl]; exact hsome

/-- C5 counterexample: with a valid zoom level 1 and a NEGATIVE
`minPixelGap = -5`, the analysis completes and returns a result — no
validation error is raised — refuting the claim that `minPixelGap < 0`
raises an error. -/
theorem C5_counterexample : (runAnalysis 1 (-5)).toOption.isSome = true := by
  unfold runAnalysis
  rw [if_neg (by norm_num), if_neg (by norm_num [SENSOR_RES_Y]),
    if_neg (by norm_num [SENSOR_RES_Y])]
  rfl

/-- C5 (amended): constructing `Zoom(zoomLevel)` and calling
`analyzeCameraView` raises an error if and only if `zoomLevel < 1` or
`minPixelGap` strictly exceeds the vertical resolution; a negative
`minPixelGap` is NOT rejected by the core (only the CLI validates it), and
every non-error input returns a result. -/
theorem C5_amended_error_iff (zoomLevel minPixelGap : ℝ) :
    (runAnalysis zoomLevel minPixelGap).toOption = none ↔
      (zoomLevel < 1 ∨ SENSOR_RES_Y < minPixelGap) := by
  unfold runAnalysis
  split_ifs with h1 h2 h3
  · simp [Except.toOption, h1]
  · simp [Except.toOption, h2]
  · simp [Except.toOption, h1, h2]
  · simp [Except.toOption, h1, h2]

/-- Witness for C5's amended statement at `zoomLevel = 0.5`. -/
theorem C5_witness : (runAnalysis 0.5 10).toOption = none :=
  (C5_amended_error_iff 0.5 10).mpr (Or.inl (by norm_num))

/-- C6 counterexample: `analyze(zoom = 1, gap = 2000)` raises
`ImpossibleConstraintError` — it does not return a result with
`distanceMeters = 0` and `lineCount = 0` as the claim states. -/
theorem C6_counterexample :
    runAnalysis 1 2000 = .error .impossibleConstraint := by
  unfold runAnalysis
  rw [if_neg (by norm_num), if_pos (by norm_num [SENSOR_RES_Y])]

/-- C6 (amended): for every valid zoom level, a `minPixelGap` strictly
greater than the vertical resolution makes the analysis throw
`ImpossibleConstraintError` instead of returning a result. -/
theorem C6_amended_impossible_error (zoomLevel minPixelGap : ℝ)
    (h1 : 1 ≤ zoomLevel) (h2 : SENSOR_RES_Y < minPixelGap) :
    runAnalysis zoomLevel minPixelGap = .error .impossibleConstraint := by
  unfold runAnalysis
  rw [if_neg (not_lt.mpr h1), if_pos h2]

/-- Witness for C6's amended statement at `(2, 1500)`. -/
theorem C6_witness : runAnalysis 2 1500 = .error .impossibleConstraint :=
  C6_amended_impossible_error 2 1500 (by norm_num) (by norm_num [SENSOR_RES_Y])

/-- C7: for every valid zoom level, a `minPixelGap` exactly equal to the
vertical resolution returns the marker gap as the distance with exactly
one visible line, built directly from one tilt solve — the general
distance search does not appear in the result. -/
theorem C7_exact_resolution_special_case (zoomLevel : ℝ) (h : 1 ≤ zoomLevel) :
    runAnalysis zoomLevel SENSOR_RES_Y =
      .ok ⟨LINE_SPACING,
        ⟨findOptimalTilt LINE_SPACING (zoomFocalLength zoomLevel) CAMERA_HEIGHT⟩, 1,
        zoomFocalLength zoomLevel⟩ := by
  unfold runAnalysis
  rw [if_neg (not_lt.mpr h), if_neg (lt_irrefl SENSOR_RES_Y), if_pos rfl]

/-- Witness for C7 at zoom level 1. -/
theorem C7_witness :
    runAnalysis 1 SENSOR_RES_Y =
      .ok ⟨LINE_SPACING, ⟨findOptimalTilt LINE_SPACING (zoomFocalLength 1) CAMERA_HEIGHT⟩, 1,
        zoomFocalLength 1⟩ :=
  C7_exact_resolution_special_case 1 le_rfl

/-- The detailed search result always has a natural-number line count with
`distance = lineCount * LINE_SPACING`. -/
lemma withDetails_lineCount_nat (f g H : ℝ) :
    ∃ n : ℕ, (findMaximumDistanceWithDetails f g H).lineCount = (n : ℝ) ∧
      (findMaximumDistanceWithDetails f g H).distance = (n : ℝ) * LINE_SPACING := by
  simp only [findMaximumDistanceWithDetails]
  split_ifs with h
  · exact ⟨0, by simp, by simp⟩
  · have hs : 0 ≤ (searchBounds f g H).1 := searchBounds_fst_nonneg f g H
    have hfl : (0 : ℤ) ≤ ⌊(searchBounds f g H).1 / LINE_SPACING⌋ :=
      Int.floor_nonneg.mpr (div_nonneg hs (by norm_num [LINE_SPACING]))
    have hcast : ((⌊(searchBounds f g H).1 / LINE_SPACING⌋.toNat : ℕ) : ℝ) =
        ((⌊(searchBounds f g H).1 / LINE_SPACING⌋ : ℤ) : ℝ) := by
      exact_mod_cast congrArg (Int.cast : ℤ → ℝ) (Int.toNat_of_nonneg hfl)
    refine ⟨⌊(searchBounds f g H).1 / LINE_SPACING⌋.toNat, ?_, ?_⟩
    · show findMaximumDistance f g H / LINE_SPACING = _
      unfold findMaximumDistance floorToLine
      rw [hcast]
      exact mul_div_cancel_right₀ _ (show (LINE_SPACING : ℝ) ≠ 0 from by norm_num [LINE_SPACING])
    · show findMaximumDistance f g H = _
      unfold findMaximumDistance floorToLine
      rw [hcast]

/-- C9: every analysis result produced without an error satisfies the
`CameraViewAnalysis` invariant — `lineCount` is a non-negative integer and
`distanceMeters = lineCount × markerGap` — and the distance returned by
the detailed search is the floor of the final feasible search bound to a
multiple of the marker gap. -/
theorem C9_result_invariant :
    (∀ (zoomLevel minPixelGap : ℝ) (r : CameraViewAnalysis),
        runAnalysis zoomLevel minPixelGap = .ok r →
          ∃ n : ℕ, r.lineCount = (n : ℝ) ∧ r.distanceInMeters = (n : ℝ) * LINE_SPACING)
    ∧ (∀ f g H : ℝ, (findMaximumDistanceWithDetails f g H).distance =
        floorToLine (searchBounds f g H).1) := by
  constructor
  · intro zoomLevel minPixelGap r h
    unfold runAnalysis at h
    split_ifs at h with h1 h2 h3
    · cases h
      exact ⟨1, by norm_num, by norm_num⟩
    · cases h
      obtain ⟨n, hn1, hn2⟩ := withDetails_lineCount_nat
        (zoomFocalLength zoomLevel) minPixelGap CAMERA_HEIGHT
      exact ⟨n, hn1, hn2⟩
  · intro f g H
    have hdef : floorToLine (searchBounds f g H).1 = findMaximumDistance f g H := rfl
    rw [hdef]
    simp only [findMaximumDistanceWithDetails]
    split_ifs with h
    · exact h.symm
    · rfl

/-- Witness for C9 at `(1, SENSOR_RES_Y)`: the special-case result has
`lineCount = 1` and `distance = 1 * LINE_SPACING`. -/
theorem C9_witness :
    ∃ n : ℕ, (1 : ℝ) = (n : ℝ) ∧ (LINE_SPACING : ℝ) = (n : ℝ) * LINE_SPACING := by
  have hok : runAnalysis 1 SENSOR_RES_Y =
      .ok ⟨LINE_SPACING, ⟨findOptimalTilt LINE_SPACING (zoomFocalLength 1) CAMERA_HEIGHT⟩, 1,
        zoomFocalLength 1⟩ := by
    unfold runAnalysis
    rw [if_neg (by norm_num), if_neg (lt_irrefl SENSOR_RES_Y), if_pos rfl]
  exact C9_result_invariant.1 1 SENSOR_RES_Y _ hok

end CameraAssessment
